import Mathlib

/-!
Verification of the email classification-and-filtering engine.

The definitions below are a shallow embedding of the JavaScript source:
`utils.js` (string helpers, retry, protection matchers), `emailAnalyzer.js`
(classification), `emailFilter.js` (batch mutation and rule synthesis) and
`checkpoint.js` (resume state).  Strings are modelled as Lean `String`s with
all operations implemented over character lists mirroring the JavaScript
semantics (case conversion, `includes`, `endsWith`, the regular expressions
used by `extractDomain` / `extractEmail`).
-/

namespace FixEmail

/-- Characters matched by the JavaScript whitespace class between tokens
(the ASCII part of the regexp class that the source uses). -/
def isSpaceJS (c : Char) : Bool :=
  c = ' ' || c = '\t' || c = '\n' || c = '\r' || c = '\x0b' || c = '\x0c' ||
  c = '\xa0'

/-- ASCII lower-casing of one character, as `String.prototype.toLowerCase`
acts on the ASCII range. -/
def charLowerJS (c : Char) : Char :=
  if 'A' ≤ c && c ≤ 'Z' then Char.ofNat (c.toNat + 32) else c

/-- JavaScript `toLowerCase` on a string (ASCII range). -/
def jsToLower (s : String) : String :=
  String.mk (s.toList.map charLowerJS)

/-- JavaScript `trim`: strip leading and trailing whitespace. -/
def jsTrim (s : String) : String :=
  String.mk (((s.toList.dropWhile isSpaceJS).reverse.dropWhile isSpaceJS).reverse)

/-- Whether `needle` is a prefix of `hay` (character lists). -/
def isPrefixList : List Char → List Char → Bool
  | [], _ => true
  | _ :: _, [] => false
  | a :: as, b :: bs => a = b && isPrefixList as bs

/-- Whether `needle` occurs as a contiguous sublist of `hay`:
JavaScript `String.prototype.includes`. -/
def listContains (needle : List Char) : List Char → Bool
  | [] => isPrefixList needle []
  | c :: rest => isPrefixList needle (c :: rest) || listContains needle rest

/-- JavaScript `includes` on strings (case-sensitive). -/
def strContains (s sub : String) : Bool :=
  listContains sub.toList s.toList

/-- JavaScript `endsWith` on strings. -/
def strEndsWith (s suffix : String) : Bool :=
  isPrefixList suffix.toList.reverse s.toList.reverse

/-- JavaScript `startsWith` on strings. -/
def strStartsWith (s pre : String) : Bool :=
  isPrefixList pre.toList s.toList

/-- Whether a string contains a given character: JavaScript `includes` with a
one-character argument. -/
def strContainsChar (s : String) (c : Char) : Bool :=
  s.toList.contains c

/-- Character class `[^>\s]` used by the domain regexp in `extractDomain`. -/
def domCharOk (c : Char) : Bool :=
  c ≠ '>' && !(isSpaceJS c)

/-- Scan for the regexp `@([^>\s]+)` over a character list: find the first
`@` followed by at least one admissible character and return the greedy
capture, as the JavaScript engine does. -/
def extractDomainList : List Char → List Char
  | [] => []
  | c :: rest =>
      if c = '@' then
        match rest with
        | [] => []
        | d :: _ =>
            if domCharOk d then rest.takeWhile domCharOk
            else extractDomainList rest
      else extractDomainList rest

/-- Embedding of `extractDomain` from `utils.js`: match `/@([^>\s]+)/` and
lower-case the capture, returning `""` when there is no match. -/
def extractDomain (email : String) : String :=
  jsToLower (String.mk (extractDomainList email.toList))

/-- Characters matched by `.` in a JavaScript regexp (anything except a line
terminator). -/
def dotOk (c : Char) : Bool :=
  c ≠ '\n' && c ≠ '\r' && c ≠ Char.ofNat 0x2028 && c ≠ Char.ofNat 0x2029

/-- At a position just after a `<`, attempt the lazy match `(.+?)>`: the
capture runs to the first later `>` (at least one character long) and must
consist of dot-matching characters. -/
def gtCapture : List Char → Option (List Char)
  | [] => none
  | c :: rest =>
      let pre := rest.takeWhile (fun d => d ≠ '>')
      if ((rest.drop pre.length).head? == some '>') && (c :: pre).all dotOk
      then some (c :: pre) else none

/-- Scan for the regexp `<(.+?)>`: try each `<` from the left and take the
first position where the lazy capture succeeds. -/
def angleCapture : List Char → Option (List Char)
  | [] => none
  | c :: rest =>
      if c = '<' then
        match gtCapture rest with
        | some cap => some cap
        | none => angleCapture rest
      else angleCapture rest

/-- Scan for the regexp `([^\s]+@[^\s]+)`: the leftmost maximal run of
non-whitespace characters that contains an `@` at an interior position
(neither first nor last character of the run) matches, and the greedy
capture is the whole run. -/
def findEmailMatchFuel : Nat → List Char → Option (List Char)
  | _, [] => none
  | 0, _ :: _ => none
  | fuel + 1, c :: rest =>
      if isSpaceJS c then findEmailMatchFuel fuel rest
      else
        let run := c :: rest.takeWhile (fun d => !(isSpaceJS d))
        if ((run.drop 1).dropLast).contains '@' then some run
        else findEmailMatchFuel fuel (rest.drop (run.length - 1))

/-- The scan of `findEmailMatchFuel` started with enough fuel to visit the
whole list. -/
def findEmailMatch (l : List Char) : Option (List Char) :=
  findEmailMatchFuel l.length l

/-- Embedding of `extractEmail` from `utils.js`: first try `/<(.+?)>/`, then
`/([^\s]+@[^\s]+)/`, and fall back to lower-casing the whole header value. -/
def extractEmail (fromField : String) : String :=
  match angleCapture fromField.toList with
  | some cap => jsToLower (String.mk cap)
  | none =>
      match findEmailMatch fromField.toList with
      | some run => jsToLower (String.mk run)
      | none => jsToLower fromField

/-- One protected-sender pattern test from `isProtectedSender` in
`utils.js`, against a pre-lowered email and its extracted domain.  The
pattern `senderLower` is already lower-cased and trimmed. -/
def senderMatches (emailLower domain senderLower : String) : Bool :=
  if emailLower == senderLower then true
  else if !(strContainsChar senderLower '@') && strEndsWith domain senderLower then true
  else if strStartsWith senderLower "@" then
    let senderDomain := String.mk (senderLower.toList.drop 1)
    domain == senderDomain || strEndsWith domain ("." ++ senderDomain)
  else
    let senderDomain := extractDomain senderLower
    senderDomain != "" && domain == senderDomain

/-- Embedding of `isProtectedSender` from `utils.js`. -/
def isProtectedSender (email : String) (protectedSenders : List String) : Bool :=
  let emailLower := jsToLower email
  let domain := extractDomain emailLower
  protectedSenders.any (fun sender => senderMatches emailLower domain (jsTrim (jsToLower sender)))

/-- The built-in protected-domain list from `utils.js`. -/
def PROTECTED_DOMAINS : List String :=
  ["chase.com", "capitalone.com", "paypal.com", "venmo.com", "mercury.com",
   "rippling.com", "uber.com", "lyft.com", "doordash.com", "google.com",
   "github.com", "apple.com", "citi.com", "amex.com", "americanexpress.com",
   "wellsfargo.com", "bankofamerica.com", "sutterhealth.org", "united.com",
   "delta.com", "southwest.com", "aa.com"]

/-- Embedding of `isFromProtectedDomain` from `utils.js`: the email's domain
equals a protected domain or ends with `"." ++` that domain. -/
def isFromProtectedDomain (email : String) : Bool :=
  let domain := extractDomain email
  PROTECTED_DOMAINS.any (fun pd => domain == pd || strEndsWith domain ("." ++ pd))

/-- Configuration held by `EmailAnalyzer` after its constructor has
lower-cased and trimmed every entry. -/
structure AnalyzerConfig where
  vipEmails : List String
  protectedSenders : List String
  protectedKeywords : List String

/-- Build the analyzer configuration the way the `EmailAnalyzer` constructor
does: each configured entry is lower-cased then trimmed. -/
def mkAnalyzerConfig (vip ps pk : List String) : AnalyzerConfig :=
  ⟨vip.map (fun e => jsTrim (jsToLower e)),
   ps.map (fun e => jsTrim (jsToLower e)),
   pk.map (fun k => jsTrim (jsToLower k))⟩

/-- The metadata headers `analyzeEmail` reads (absent headers are `none`). -/
structure Headers where
  fromHeader : Option String
  subjectHeader : Option String
  listUnsubscribe : Option String
  listId : Option String

/-- JavaScript truthiness of an optional header value: present and not the
empty string. -/
def truthy : Option String → Bool
  | none => false
  | some s => s != ""

/-- The automated-sender substrings tested against `fromEmail`
(each source regexp `/pat/i` is a case-insensitive substring test). -/
def automatedPatterns : List String :=
  ["noreply", "no-reply", "donotreply", "automated", "notification", "alert", "system"]

/-- The newsletter subject substrings. -/
def newsletterSubjectPatterns : List String :=
  ["newsletter", "weekly digest", "daily digest", "update from", "news from"]

/-- The simple receipt subject substrings (the two `order.*` regexps are
handled separately by `seqTail`/`seqMatch`). -/
def receiptPatterns : List String :=
  ["receipt", "payment", "invoice", "charged", "your purchase"]

/-- The confirmation subject substrings. -/
def confirmationPatterns : List String :=
  ["confirmation", "confirmed", "appointment", "reservation", "scheduled", "registration"]

/-- Case-insensitive substring test, the meaning of a literal regexp with the
`i` flag as the source uses them. -/
def ciContains (s pat : String) : Bool :=
  strContains (jsToLower s) pat

/-- Match `.*b` against a character list: either `b` matches here or one
dot-admissible character is consumed. -/
def seqTail (b : List Char) : List Char → Bool
  | [] => isPrefixList b []
  | c :: rest => isPrefixList b (c :: rest) || (dotOk c && seqTail b rest)

/-- Match the regexp `a.*b` somewhere in the list (Boolean `test`). -/
def seqMatch (a b : List Char) : List Char → Bool
  | [] => isPrefixList a [] && seqTail b []
  | c :: rest =>
      (isPrefixList a (c :: rest) && seqTail b ((c :: rest).drop a.length)) ||
      seqMatch a b rest

/-- Case-insensitive `a.*b` subject test, for `/order.*shipped/i` and
`/order.*delivered/i`. -/
def ciSeqMatch (s a b : String) : Bool :=
  seqMatch a.toList b.toList (jsToLower s).toList

/-- Embedding of `EmailAnalyzer.categorizeEmail`: the fixed-precedence
classifier over headers, provider labels, the extracted sender address and
the subject. -/
def categorizeEmail (cfg : AnalyzerConfig) (headers : Headers) (labels : List String)
    (fromEmail subject : String) : String :=
  if cfg.vipEmails.contains fromEmail then "vip"
  else if cfg.protectedSenders.contains fromEmail then "protected"
  else if cfg.protectedKeywords.any (fun k => strContains (jsToLower subject) k) then "protected"
  else if truthy headers.listUnsubscribe || truthy headers.listId then "newsletter"
  else if labels.contains "CATEGORY_PROMOTIONS" then "promotional"
  else if labels.contains "CATEGORY_SOCIAL" then "social"
  else if labels.contains "CATEGORY_FORUMS" then "forums"
  else if automatedPatterns.any (fun p => ciContains fromEmail p) then "automated"
  else if newsletterSubjectPatterns.any (fun p => ciContains subject p) then "newsletter"
  else if (receiptPatterns.any (fun p => ciContains subject p) ||
           ciSeqMatch subject "order" "shipped" ||
           ciSeqMatch subject "order" "delivered" ||
           strContains fromEmail "paypal.com" ||
           strContains fromEmail "invoice" ||
           strContains fromEmail "amazon.com") then "receipt"
  else if confirmationPatterns.any (fun p => ciContains subject p) then "confirmation"
  else "unknown"

/-- The closed set of categories `categorizeEmail` can produce. -/
def categoryList : List String :=
  ["vip", "protected", "newsletter", "promotional", "social", "forums",
   "automated", "receipt", "confirmation", "unknown"]

/-- A per-message analysis record, the pure part of
`EmailAnalyzer.analyzeEmail` after the provider fetch. -/
structure EmailAnalysis where
  id : String
  fromField : String
  fromEmail : String
  subject : String
  category : String
deriving DecidableEq, Repr

/-- The pure tail of `EmailAnalyzer.analyzeEmail`: absent `From` / `Subject`
headers default to `""`, the sender address is extracted from the `From`
value, and the message is categorized. -/
def analyzeEmailPure (cfg : AnalyzerConfig) (msgId : String) (headers : Headers)
    (labels : List String) : EmailAnalysis :=
  let fromField := headers.fromHeader.getD ""
  let subject := headers.subjectHeader.getD ""
  let fromEmail := extractEmail fromField
  { id := msgId, fromField := fromField, fromEmail := fromEmail, subject := subject,
    category := categorizeEmail cfg headers labels fromEmail subject }

/-- A JavaScript error as `withRetry` inspects it: a numeric `code` (absent
for plain errors) and whether the message mentions a rate limit. -/
structure JsError where
  code : Option Int
  rateLimitMsg : Bool
deriving DecidableEq, Repr

/-- The immediate-failure test of `withRetry`: `error.code === 401 ||
error.code === 404`. -/
def fatalError (e : JsError) : Bool :=
  e.code == some 401 || e.code == some 404

/-- The retry loop of `withRetry`: `fn attempt` is the outcome of the
invocation numbered `attempt` (starting at 0), `remaining` counts the
attempts still allowed after the current one.  Returns the final outcome
together with the number of invocations made.  Backoff delays (including the
more aggressive rate-limit backoff) only affect timing, not the outcome, and
are not modelled. -/
def retryLoop (fn : Nat → Except JsError α) (attempt : Nat) :
    Nat → Except JsError α × Nat
  | 0 =>
      match fn attempt with
      | .ok v => (.ok v, attempt + 1)
      | .error e => (.error e, attempt + 1)
  | r + 1 =>
      match fn attempt with
      | .ok v => (.ok v, attempt + 1)
      | .error e =>
          if fatalError e then (.error e, attempt + 1)
          else retryLoop fn (attempt + 1) r

/-- Embedding of `withRetry` from `utils.js`: up to `maxRetries + 1`
invocations, immediate propagation of 401/404 failures, and propagation of
the last failure after exhaustion.  The second component counts how many
times the operation was invoked. -/
def withRetry (fn : Nat → Except JsError α) (maxRetries : Nat) :
    Except JsError α × Nat :=
  retryLoop fn 0 maxRetries

/-- The chunking loop shared by `EmailFilter.applyLabel` and
`EmailFilter.archiveMessages`: `messageIds.slice(i, i + 50)` for
`i = 0, 50, 100, ...`, in list order. -/
def sliceChunksFuel : Nat → List String → List (List String)
  | _, [] => []
  | 0, _ :: _ => []
  | fuel + 1, x :: xs => (x :: xs.take 49) :: sliceChunksFuel fuel (xs.drop 49)

/-- The slicing loop started with enough fuel to consume the whole list
(each step removes at least one element, so `l.length` steps suffice). -/
def sliceChunks (l : List String) : List (List String) :=
  sliceChunksFuel l.length l

/-- The provider mutation calls `EmailFilter.applyLabel` issues: nothing for
a null or empty id list, otherwise one `batchModify` per 50-element chunk. -/
def applyLabel (messageIds : Option (List String)) : List (List String) :=
  match messageIds with
  | none => []
  | some ids => if ids.length = 0 then [] else sliceChunks ids

/-- The provider mutation calls `EmailFilter.archiveMessages` issues; the
guard and chunking are identical to `applyLabel`, only the mutation payload
(removing `INBOX`) differs. -/
def archiveMessages (messageIds : Option (List String)) : List (List String) :=
  match messageIds with
  | none => []
  | some ids => if ids.length = 0 then [] else sliceChunks ids

/-- Execution of the `applyLabel` loop against a provider oracle: `call k b`
is the provider's response to the invocation numbered `k` (globally) on chunk
`b`.  Each chunk is invoked exactly once inside a `try/catch`, so a failure
is recorded and the loop continues.  Returns the per-chunk outcomes and the
next invocation number. -/
def runChunksFuel (call : Nat → List String → Except JsError Unit) :
    Nat → Nat → List String → List (List String × Except JsError Unit) × Nat
  | _, k, [] => ([], k)
  | 0, k, _ :: _ => ([], k)
  | fuel + 1, k, x :: xs =>
      let batch := x :: xs.take 49
      let res := call k batch
      let rest := runChunksFuel call fuel (k + 1) (xs.drop 49)
      ((batch, res) :: rest.1, rest.2)

/-- The mutation loop started with enough fuel to consume the whole list. -/
def runChunks (call : Nat → List String → Except JsError Unit) (k : Nat)
    (l : List String) : List (List String × Except JsError Unit) × Nat :=
  runChunksFuel call l.length k l

/-- Execution of `EmailFilter.applyLabel` with its null/empty guard, against
a provider oracle, starting from invocation number `k`. -/
def applyLabelRun (call : Nat → List String → Except JsError Unit) (k : Nat)
    (messageIds : Option (List String)) :
    List (List String × Except JsError Unit) × Nat :=
  match messageIds with
  | none => ([], k)
  | some ids => if ids.length = 0 then ([], k) else runChunks call k ids

/-- Execution of `EmailFilter.archiveMessages` against a provider oracle;
the control flow is the same as `applyLabelRun`. -/
def archiveMessagesRun (call : Nat → List String → Except JsError Unit) (k : Nat)
    (messageIds : Option (List String)) :
    List (List String × Except JsError Unit) × Nat :=
  match messageIds with
  | none => ([], k)
  | some ids => if ids.length = 0 then ([], k) else runChunks call k ids

/-- A persistent Gmail filter as `EmailFilter` reads it:
`filter.criteria?.from` (absent criteria or absent `from` are `none`). -/
structure GmailFilter where
  criteriaFrom : Option String
deriving DecidableEq, Repr

/-- Embedding of `EmailFilter.filterExists` over the existing-filter
snapshot: `filters.some(f => f.criteria?.from === from)` — strict (hence
case-sensitive) string equality. -/
def filterExists (filters : List GmailFilter) (sender : String) : Bool :=
  filters.any (fun f => f.criteriaFrom == some sender)

/-- Embedding of the `EmailFilter.isProtectedSender` method: the
configured-sender match or the built-in protected-domain match. -/
def filterIsProtectedSender (email : String) (protectedSenders : List String) : Bool :=
  isProtectedSender email protectedSenders || isFromProtectedDomain email

/-- First-occurrence deduplication, the key order a JavaScript object gives
`Object.entries` for string keys. -/
def dedupFirstAux (seen : List String) : List String → List String
  | [] => []
  | x :: xs =>
      if seen.contains x then dedupFirstAux seen xs
      else x :: dedupFirstAux (x :: seen) xs

/-- First-occurrence key order of a JavaScript object built by insertion. -/
def dedupFirst (l : List String) : List String :=
  dedupFirstAux [] l

/-- The sender addresses of a category's analyses, skipping falsy (empty)
`fromEmail` values as `getFrequentSenders` does. -/
def sendersOf (emails : List EmailAnalysis) : List String :=
  (emails.map (fun e => e.fromEmail)).filter (fun s => s ≠ "")

/-- Embedding of `EmailFilter.getFrequentSenders`: the senders whose
frequency in the category reaches `minFrequency`, in first-occurrence
order. -/
def getFrequentSenders (emails : List EmailAnalysis) (minFrequency : Nat) : List String :=
  (dedupFirst (sendersOf emails)).filter
    (fun s => minFrequency ≤ (sendersOf emails).count s)

/-- The category groups `createFilters` consumes from the analysis result. -/
structure AnalysisResults where
  newsletters : List EmailAnalysis
  promotional : List EmailAnalysis
  automated : List EmailAnalysis
deriving Repr

/-- One category pass of `EmailFilter.createFilters`: if the category holds
more than 5 messages, each sender with frequency at least 3 gets a filter
unless one with that exact `from` already exists or the sender is
protected. -/
def categoryCreates (emails : List EmailAnalysis) (existing : List GmailFilter)
    (protectedSenders : List String) : List String :=
  if 5 < emails.length then
    (getFrequentSenders emails 3).filter
      (fun sender => !(filterExists existing sender) &&
                     !(filterIsProtectedSender sender protectedSenders))
  else []

/-- Embedding of `EmailFilter.createFilters`: the `from` criteria of the
filter-creation calls issued, in order — newsletters, then promotional, then
automated.  `existing` is the existing-filter snapshot cached by
`getExistingFilters` at the start of the run. -/
def createFilters (results : AnalysisResults) (existing : List GmailFilter)
    (protectedSenders : List String) : List String :=
  categoryCreates results.newsletters existing protectedSenders ++
  categoryCreates results.promotional existing protectedSenders ++
  categoryCreates results.automated existing protectedSenders

/-- The persisted checkpoint record of `checkpoint.js`. -/
structure Checkpoint where
  lastProcessedDate : Option String
  totalProcessed : Nat
  lastRun : Option String
deriving DecidableEq, Repr

/-- The default checkpoint `loadCheckpoint` returns when no file exists. -/
def defaultCheckpoint : Checkpoint :=
  { lastProcessedDate := none, totalProcessed := 0, lastRun := none }

/-- Embedding of `loadCheckpoint`: the stored record, or the zero-value
defaults when nothing has been stored. -/
def loadCheckpoint (store : Option Checkpoint) : Checkpoint :=
  store.getD defaultCheckpoint

/-- A partial update as passed to `updateCheckpoint`: object-spread
semantics, a field overwrites only when present. -/
structure CheckpointPatch where
  lastProcessedDate : Option (Option String)
  totalProcessed : Option Nat
  lastRun : Option (Option String)
deriving Repr

/-- The object spread `{...current, ...newData}`. -/
def mergePatch (current : Checkpoint) (newData : CheckpointPatch) : Checkpoint :=
  { lastProcessedDate := newData.lastProcessedDate.getD current.lastProcessedDate,
    totalProcessed := newData.totalProcessed.getD current.totalProcessed,
    lastRun := newData.lastRun.getD current.lastRun }

/-- Embedding of `updateCheckpoint`: load the current record, spread the
partial update over it, and always refresh `lastRun` with the current
timestamp. -/
def updateCheckpoint (store : Option Checkpoint) (newData : CheckpointPatch)
    (now : String) : Checkpoint :=
  { mergePatch (loadCheckpoint store) newData with lastRun := some now }

/-- View a full checkpoint as the partial update `update(load())` passes:
every field present. -/
def checkpointAsPatch (c : Checkpoint) : CheckpointPatch :=
  { lastProcessedDate := some c.lastProcessedDate,
    totalProcessed := some c.totalProcessed,
    lastRun := some c.lastRun }

/-- The chunk lengths produced by slicing a list of length `n` into
50-element slices. -/
def sliceLensFuel : Nat → Nat → List Nat
  | _, 0 => []
  | 0, _ + 1 => []
  | fuel + 1, n + 1 => min 50 (n + 1) :: sliceLensFuel fuel (n + 1 - 50)

/-- The chunk-length sequence computed with enough fuel. -/
def sliceLens (n : Nat) : List Nat :=
  sliceLensFuel n n

/-- A classified newsletter message from `newsletter@x.com`, for the
rule-synthesis scenarios. -/
def newsletterAnalysis (i : Nat) : EmailAnalysis :=
  { id := toString i, fromField := "newsletter@x.com", fromEmail := "newsletter@x.com",
    subject := "weekly digest", category := "newsletter" }

/-- Ten classified newsletter messages from `newsletter@x.com`. -/
def tenNewsletters : List EmailAnalysis := (List.range 10).map newsletterAnalysis

/-- Six classified newsletter messages from `newsletter@x.com`. -/
def sixNewsletters : List EmailAnalysis := (List.range 6).map newsletterAnalysis

/-- A provider oracle that fails with a rate-limit error on the first
invocation and succeeds afterwards. -/
def flakyOnce (k : Nat) (_batch : List String) : Except JsError Unit :=
  if k = 0 then .error { code := some 429, rateLimitMsg := true } else .ok ()

end FixEmail

namespace FixEmail

/- Shared lemmas -/

theorem runChunksFuel_spec (fuel : Nat) :
    ∀ (l : List String), l.length ≤ fuel → ∀ call k,
      runChunksFuel call fuel k l =
        (((sliceChunksFuel fuel l).enumFrom k).map (fun p => (p.2, call p.1 p.2)),
          k + (sliceChunksFuel fuel l).length) := by
  induction fuel with
  | zero =>
      intro l hl call k
      have : l = [] := List.eq_nil_of_length_eq_zero (Nat.le_zero.mp hl)
      subst this
      simp [runChunksFuel, sliceChunksFuel]
  | succ m ih =>
      intro l hl call k
      cases l with
      | nil => simp [runChunksFuel, sliceChunksFuel]
      | cons x xs =>
          have hdrop : (xs.drop 49).length ≤ m := by
            simp only [List.length_drop]
            simp only [List.length_cons] at hl
            omega
          simp only [runChunksFuel, sliceChunksFuel, ih (xs.drop 49) hdrop call (k + 1)]
          simp [List.enumFrom, Nat.add_comm, Nat.add_assoc, Nat.add_left_comm]

/-- Every chunk run pairs each slice with exactly one provider invocation,
numbered consecutively from `k`, and the final counter advances by the
number of slices. -/
theorem runChunks_spec (l : List String) (call : Nat → List String → Except JsError Unit)
    (k : Nat) :
    runChunks call k l =
      (((sliceChunks l).enumFrom k).map (fun p => (p.2, call p.1 p.2)),
        k + (sliceChunks l).length) :=
  runChunksFuel_spec l.length l (Nat.le_refl _) call k

theorem sliceChunksFuel_join (fuel : Nat) :
    ∀ (l : List String), l.length ≤ fuel → (sliceChunksFuel fuel l).flatten = l := by
  induction fuel with
  | zero =>
      intro l hl
      have : l = [] := List.eq_nil_of_length_eq_zero (Nat.le_zero.mp hl)
      subst this
      simp [sliceChunksFuel]
  | succ m ih =>
      intro l hl
      cases l with
      | nil => simp [sliceChunksFuel]
      | cons x xs =>
          have hdrop : (xs.drop 49).length ≤ m := by
            simp only [List.length_drop]
            simp only [List.length_cons] at hl
            omega
          simp only [sliceChunksFuel, List.flatten_cons, ih (xs.drop 49) hdrop]
          simp [List.take_append_drop]

/-- The slices of a list concatenate back to the list, in order. -/
theorem sliceChunks_join (l : List String) : (sliceChunks l).flatten = l :=
  sliceChunksFuel_join l.length l (Nat.le_refl _)

theorem sliceChunksFuel_map_length (fuel : Nat) :
    ∀ (l : List String), l.length ≤ fuel →
      (sliceChunksFuel fuel l).map List.length = sliceLensFuel fuel l.length := by
  induction fuel with
  | zero =>
      intro l hl
      have : l = [] := List.eq_nil_of_length_eq_zero (Nat.le_zero.mp hl)
      subst this
      simp [sliceChunksFuel, sliceLensFuel]
  | succ m ih =>
      intro l hl
      cases l with
      | nil => simp [sliceChunksFuel, sliceLensFuel]
      | cons x xs =>
          have hdrop : (xs.drop 49).length ≤ m := by
            simp only [List.length_drop]
            simp only [List.length_cons] at hl
            omega
          rw [List.length_cons]
          simp only [sliceChunksFuel, sliceLensFuel, List.map, ih (xs.drop 49) hdrop]
          have h1 : (x :: List.take 49 xs).length = min 50 (xs.length + 1) := by
            simp [List.length_take]
            omega
          have h2 : (List.drop 49 xs).length = xs.length + 1 - 50 := by
            simp only [List.length_drop]
            omega
          rw [h1, h2]

/-- The slice lengths of a list are determined by its length. -/
theorem sliceChunks_map_length (l : List String) :
    (sliceChunks l).map List.length = sliceLens l.length :=
  sliceChunksFuel_map_length l.length l (Nat.le_refl _)

/-- Membership in a category's creation list implies the run-level guards:
the category exceeded 5 messages, the sender reached frequency 3, no
existing filter has that exact `from`, and the sender is not protected. -/
theorem mem_categoryCreates {em : List EmailAnalysis} {ex : List GmailFilter}
    {ps : List String} {s : String} (h : s ∈ categoryCreates em ex ps) :
    5 < em.length ∧ s ∈ getFrequentSenders em 3 ∧
      filterExists ex s = false ∧ filterIsProtectedSender s ps = false := by
  unfold categoryCreates at h
  split at h
  · rename_i hlen
    rw [List.mem_filter] at h
    rcases h with ⟨hmem, hguard⟩
    rw [Bool.and_eq_true] at hguard
    rcases hguard with ⟨h1, h2⟩
    rw [Bool.not_eq_true'] at h1 h2
    exact ⟨hlen, hmem, h1, h2⟩
  · simp at h

/- C8 -/

/-- C8: `load()` with no stored checkpoint returns the zero-value defaults;
`update(load())` keeps `lastProcessedDate` and `totalProcessed` and only
refreshes the last-run timestamp; and any partial update overwrites exactly
the provided fields, retains the rest, and always sets the last-run
timestamp. -/
theorem c8_checkpoint_roundtrip :
    loadCheckpoint none =
      { lastProcessedDate := none, totalProcessed := 0, lastRun := none } ∧
    (∀ store now,
      updateCheckpoint store (checkpointAsPatch (loadCheckpoint store)) now =
        { loadCheckpoint store with lastRun := some now }) ∧
    (∀ store p now,
      (updateCheckpoint store p now).lastProcessedDate =
        p.lastProcessedDate.getD (loadCheckpoint store).lastProcessedDate ∧
      (updateCheckpoint store p now).totalProcessed =
        p.totalProcessed.getD (loadCheckpoint store).totalProcessed ∧
      (updateCheckpoint store p now).lastRun = some now) := by
  refine ⟨rfl, ?_, ?_⟩
  · intro store now
    simp [updateCheckpoint, mergePatch, checkpointAsPatch]
  · intro store p now
    exact ⟨rfl, rfl, rfl⟩

/- C9 -/

/-- C9: with a null or empty message-id list, both batch mutators issue no
provider call and leave the invocation counter unchanged. -/
theorem c9_empty_noop :
    ∀ call k,
      applyLabelRun call k none = ([], k) ∧
      applyLabelRun call k (some []) = ([], k) ∧
      archiveMessagesRun call k none = ([], k) ∧
      archiveMessagesRun call k (some []) = ([], k) ∧
      applyLabel none = [] ∧ applyLabel (some []) = [] ∧
      archiveMessages none = [] ∧ archiveMessages (some []) = [] := by
  intro call k
  exact ⟨rfl, rfl, rfl, rfl, rfl, rfl, rfl, rfl⟩

/- C4 -/

/-- C4: with `maxRetries = 3`, an operation failing twice then succeeding is
invoked exactly 3 times and its result is returned; a 401/404 failure is
invoked exactly once and propagates immediately; and after exhausting all
attempts the last failure propagates. -/
theorem c4_retry_policy :
    (∀ {α : Type} (fn : Nat → Except JsError α) (v : α) (e0 e1 : JsError),
      fn 0 = .error e0 → fn 1 = .error e1 → fn 2 = .ok v →
      fatalError e0 = false → fatalError e1 = false →
      withRetry fn 3 = (.ok v, 3)) ∧
    (∀ {α : Type} (fn : Nat → Except JsError α) (e : JsError),
      fn 0 = .error e → fatalError e = true →
      withRetry fn 3 = (.error e, 1)) ∧
    (∀ {α : Type} (fn : Nat → Except JsError α) (e0 e1 e2 e3 : JsError),
      fn 0 = .error e0 → fn 1 = .error e1 → fn 2 = .error e2 → fn 3 = .error e3 →
      fatalError e0 = false → fatalError e1 = false → fatalError e2 = false →
      withRetry fn 3 = (.error e3, 4)) := by
  refine ⟨?_, ?_, ?_⟩
  · intro α fn v e0 e1 h0 h1 h2 hf0 hf1
    simp [withRetry, retryLoop, h0, h1, h2, hf0, hf1]
  · intro α fn e h0 hf
    simp [withRetry, retryLoop, h0, hf]
  · intro α fn e0 e1 e2 e3 h0 h1 h2 h3 hf0 hf1 hf2
    simp [withRetry, retryLoop, h0, h1, h2, h3, hf0, hf1, hf2]

/-- Witness for C4 at concrete operations: failing twice then returning 7,
always failing with 404, and always failing with a plain error. -/
theorem c4_retry_policy_witness :
    withRetry (fun k => if k < 2 then .error ⟨none, false⟩ else .ok 7) 3 =
      (.ok 7, 3) ∧
    withRetry (fun _ => (.error ⟨some 404, false⟩ : Except JsError Nat)) 3 =
      (.error ⟨some 404, false⟩, 1) ∧
    withRetry (fun _ => (.error ⟨none, false⟩ : Except JsError Nat)) 3 =
      (.error ⟨none, false⟩, 4) := by
  refine ⟨?_, ?_, ?_⟩
  · exact c4_retry_policy.1 _ 7 ⟨none, false⟩ ⟨none, false⟩ rfl rfl rfl rfl rfl
  · exact c4_retry_policy.2.1 _ ⟨some 404, false⟩ rfl rfl
  · exact c4_retry_policy.2.2 _ ⟨none, false⟩ ⟨none, false⟩ ⟨none, false⟩ ⟨none, false⟩
      rfl rfl rfl rfl rfl rfl rfl

/- C2 -/

/-- A character list without `@` yields no domain capture. -/
theorem extractDomainList_no_at (l : List Char) (h : l.contains '@' = false) :
    extractDomainList l = [] := by
  induction l with
  | nil => rfl
  | cons c rest ih =>
      simp only [List.contains_cons, Bool.or_eq_false_iff] at h
      have hc : ¬ (c = '@') := by
        intro hh
        subst hh
        simp at h
      rw [extractDomainList.eq_def]
      simp only [if_neg hc]
      exact ih h.2

/-- A string without `@` does not start with `"@"`. -/
theorem strStartsWith_at_false (s : String) (h : strContainsChar s '@' = false) :
    strStartsWith s "@" = false := by
  unfold strStartsWith strContainsChar at *
  cases hs : s.toList with
  | nil => rfl
  | cons c rest =>
      rw [hs] at h
      simp only [List.contains_cons, Bool.or_eq_false_iff] at h
      have hc : ¬ ('@' = c) := by
        intro hh
        subst hh
        simp at h
      show isPrefixList ['@'] (c :: rest) = false
      simp [isPrefixList, hc]

/-- A string without `@` has an empty extracted domain. -/
theorem extractDomain_no_at (s : String) (h : strContainsChar s '@' = false) :
    extractDomain s = "" := by
  unfold extractDomain
  rw [extractDomainList_no_at s.toList h]
  rfl

/-- For a pattern without `@`, `isProtectedSender` reduces to full-address
equality or a plain (not dot-anchored) domain-suffix test. -/
theorem isProtectedSender_no_at (e p : String)
    (h : strContainsChar (jsTrim (jsToLower p)) '@' = false) :
    isProtectedSender e [p] =
      (jsToLower e == jsTrim (jsToLower p) ||
       strEndsWith (extractDomain (jsToLower e)) (jsTrim (jsToLower p))) := by
  unfold isProtectedSender
  simp only [List.any_cons, List.any_nil, Bool.or_false]
  unfold senderMatches
  rw [h, strStartsWith_at_false _ h, extractDomain_no_at _ h]
  cases heq : jsToLower e == jsTrim (jsToLower p)
  · simp only [heq, Bool.false_or]
    cases hend : strEndsWith (extractDomain (jsToLower e)) (jsTrim (jsToLower p)) <;>
      simp [hend]
  · simp [heq]

/-- C2 counterexample: `isProtectedSender` reports a match of
`someone@evilchase.com` against the `@`-free pattern `chase.com`, although
the domain `evilchase.com` neither equals `chase.com` nor ends with
`".chase.com"` — the claimed iff fails. -/
theorem c2_plain_suffix_counterexample :
    isProtectedSender "someone@evilchase.com" ["chase.com"] = true ∧
    (extractDomain "someone@evilchase.com" = "chase.com" → False) ∧
    strEndsWith (extractDomain "someone@evilchase.com") ".chase.com" = false := by
  refine ⟨by decide, by decide, by decide⟩

/-- C2 (amended): for an `@`-free pattern `p`, `isProtectedSender` matches
iff the lowered email equals the pattern or the email's domain ends with the
pattern as a plain string suffix (not dot-anchored), while
`isFromProtectedDomain` uses the dot-anchored rule; on the cited examples,
`alerts@billing.chase.com` matches protected domain `chase.com` under both
matchers and `someone@chase.com.evil.net` matches neither. -/
theorem c2_domain_suffix_matching :
    (∀ e p : String, strContainsChar (jsTrim (jsToLower p)) '@' = false →
      isProtectedSender e [p] =
        (jsToLower e == jsTrim (jsToLower p) ||
         strEndsWith (extractDomain (jsToLower e)) (jsTrim (jsToLower p)))) ∧
    isFromProtectedDomain "alerts@billing.chase.com" = true ∧
    isFromProtectedDomain "someone@chase.com.evil.net" = false ∧
    isProtectedSender "alerts@billing.chase.com" ["chase.com"] = true ∧
    isProtectedSender "someone@chase.com.evil.net" ["chase.com"] = false := by
  refine ⟨isProtectedSender_no_at, by decide, by decide, by decide, by decide⟩

/-- Witness for C2 at the concrete pattern `chase.com` and email
`alerts@billing.chase.com`. -/
theorem c2_domain_suffix_matching_witness :
    strContainsChar (jsTrim (jsToLower "chase.com")) '@' = false ∧
    isProtectedSender "alerts@billing.chase.com" ["chase.com"] =
      (jsToLower "alerts@billing.chase.com" == jsTrim (jsToLower "chase.com") ||
       strEndsWith (extractDomain (jsToLower "alerts@billing.chase.com"))
         (jsTrim (jsToLower "chase.com"))) :=
  ⟨by decide, c2_domain_suffix_matching.1 "alerts@billing.chase.com" "chase.com" (by decide)⟩

/- C3 -/

/-- C3 counterexample: the duplicate check is case-sensitive, so with an
existing rule whose `from` is `Newsletter@X.com`, a create call is still
issued for the candidate `newsletter@x.com` even though the two `from`
criteria are equal ignoring case. -/
theorem c3_case_insensitive_dup_counterexample :
    createFilters ⟨sixNewsletters, [], []⟩ [⟨some "Newsletter@X.com"⟩] [] =
      ["newsletter@x.com"] ∧
    jsToLower "Newsletter@X.com" = jsToLower "newsletter@x.com" := by
  exact ⟨by decide, by decide⟩

/-- C3 (amended): the Rule Synthesizer never issues a create call for a
candidate whose `from` criterion exactly (case-sensitively) equals the
`from` of some rule in the existing-rule snapshot queried at the start of
the run. -/
theorem c3_no_exact_duplicate (results : AnalysisResults)
    (existing : List GmailFilter) (ps : List String) (sender : String)
    (h : filterExists existing sender = true) :
    sender ∉ createFilters results existing ps := by
  intro hmem
  unfold createFilters at hmem
  rcases List.mem_append.mp hmem with h1 | h1
  · rcases List.mem_append.mp h1 with h2 | h2
    · have hfe := (mem_categoryCreates h2).2.2.1
      rw [h] at hfe
      exact Bool.noConfusion hfe
    · have hfe := (mem_categoryCreates h2).2.2.1
      rw [h] at hfe
      exact Bool.noConfusion hfe
  · have hfe := (mem_categoryCreates h1).2.2.1
    rw [h] at hfe
    exact Bool.noConfusion hfe

/-- Witness for C3: with an existing rule for `a@b.com`, the run issues no
create call for `a@b.com`. -/
theorem c3_no_exact_duplicate_witness :
    filterExists [⟨some "a@b.com"⟩] "a@b.com" = true ∧
    "a@b.com" ∉ createFilters ⟨sixNewsletters, [], []⟩ [⟨some "a@b.com"⟩] [] :=
  ⟨by decide,
   c3_no_exact_duplicate ⟨sixNewsletters, [], []⟩ [⟨some "a@b.com"⟩] [] "a@b.com"
     (by decide)⟩

/- C7 -/

/-- C7: create calls only come from categories with more than 5 messages and
from senders whose in-category frequency is at least 3; ten classified
newsletters from `newsletter@x.com` yield exactly one create call for that
sender when no rule exists, and none when a rule with that `from` already
exists. -/
theorem c7_rule_synthesis :
    (∀ (results : AnalysisResults) (existing : List GmailFilter)
        (ps : List String) (s : String), s ∈ createFilters results existing ps →
      (5 < results.newsletters.length ∧ s ∈ getFrequentSenders results.newsletters 3) ∨
      (5 < results.promotional.length ∧ s ∈ getFrequentSenders results.promotional 3) ∨
      (5 < results.automated.length ∧ s ∈ getFrequentSenders results.automated 3)) ∧
    (∀ (emails : List EmailAnalysis) (m : Nat) (s : String),
      s ∈ getFrequentSenders emails m → m ≤ (sendersOf emails).count s) ∧
    createFilters ⟨tenNewsletters, [], []⟩ [] [] = ["newsletter@x.com"] ∧
    createFilters ⟨tenNewsletters, [], []⟩ [⟨some "newsletter@x.com"⟩] [] = [] := by
  refine ⟨?_, ?_, by decide, by decide⟩
  · intro results existing ps s hmem
    unfold createFilters at hmem
    rcases List.mem_append.mp hmem with h1 | h1
    · rcases List.mem_append.mp h1 with h2 | h2
      · exact Or.inl ⟨(mem_categoryCreates h2).1, (mem_categoryCreates h2).2.1⟩
      · exact Or.inr (Or.inl ⟨(mem_categoryCreates h2).1, (mem_categoryCreates h2).2.1⟩)
    · exact Or.inr (Or.inr ⟨(mem_categoryCreates h1).1, (mem_categoryCreates h1).2.1⟩)
  · intro emails m s hmem
    unfold getFrequentSenders at hmem
    exact of_decide_eq_true (List.mem_filter.mp hmem).2

/-- Witness for C7 at the ten-newsletter scenario. -/
theorem c7_rule_synthesis_witness :
    ("newsletter@x.com" ∈ createFilters ⟨tenNewsletters, [], []⟩ [] []) ∧
    ((5 < tenNewsletters.length ∧
        "newsletter@x.com" ∈ getFrequentSenders tenNewsletters 3) ∨
     (5 < ([] : List EmailAnalysis).length ∧
        "newsletter@x.com" ∈ getFrequentSenders [] 3) ∨
     (5 < ([] : List EmailAnalysis).length ∧
        "newsletter@x.com" ∈ getFrequentSenders [] 3)) ∧
    3 ≤ (sendersOf tenNewsletters).count "newsletter@x.com" :=
  ⟨by decide,
   c7_rule_synthesis.1 ⟨tenNewsletters, [], []⟩ [] [] "newsletter@x.com" (by decide),
   c7_rule_synthesis.2.1 tenNewsletters 3 "newsletter@x.com" (by decide)⟩

/- C5 -/

/-- C5 counterexample: a provider that fails transiently (rate limit) on its
first invocation and succeeds afterwards.  The batch mutator records the
chunk as failed after exactly one invocation, whereas the same operation
executed under the retry policy succeeds on the second invocation — so the
chunk call is not executed under RetryPolicy. -/
theorem c5_no_retry_counterexample :
    applyLabelRun flakyOnce 0 (some ["m1"]) =
      ([(["m1"], .error ⟨some 429, true⟩)], 1) ∧
    withRetry (fun k => flakyOnce k ["m1"]) 3 = (.ok (), 2) :=
  ⟨rfl, rfl⟩

/-- C5 (amended): each chunk's provider call is issued directly, exactly
once, with consecutive invocation numbers — a failing chunk is recorded as
failed without any retry, and the invocation counter advances by exactly
the number of chunks. -/
theorem c5_direct_single_invocation :
    ∀ call k mids,
      applyLabelRun call k mids =
        (((applyLabel mids).enumFrom k).map (fun p => (p.2, call p.1 p.2)),
          k + (applyLabel mids).length) ∧
      archiveMessagesRun call k mids =
        (((archiveMessages mids).enumFrom k).map (fun p => (p.2, call p.1 p.2)),
          k + (archiveMessages mids).length) := by
  intro call k mids
  cases mids with
  | none => simp [applyLabelRun, archiveMessagesRun, applyLabel, archiveMessages, List.enumFrom]
  | some ids =>
      by_cases h : ids.length = 0
      · simp [applyLabelRun, archiveMessagesRun, applyLabel, archiveMessages, h, List.enumFrom]
      · simp only [applyLabelRun, archiveMessagesRun, applyLabel, archiveMessages, h, if_neg]
        exact ⟨runChunks_spec ids call k, runChunks_spec ids call k⟩

/- C6 -/

/-- Each slice in an enumerated run projects back to the slice itself. -/
theorem enumFrom_call_fst (call : Nat → List String → Except JsError Unit) :
    ∀ (l : List (List String)) (k : Nat),
      ((l.enumFrom k).map (fun p => (p.2, call p.1 p.2))).map Prod.fst = l := by
  intro l
  induction l with
  | nil => intro k; rfl
  | cons x xs ih =>
      intro k
      simp only [List.enumFrom, List.map]
      rw [ih (k + 1)]

/-- C6: the batch mutator splits a category's message-id list into
consecutive 50-element chunks in list order (they concatenate back to the
list and their lengths are determined by the list length); a 123-element
list produces exactly the chunk sizes 50, 50, 23 in order; and every chunk
is attempted regardless of failures of earlier chunks. -/
theorem c6_batch_chunking :
    (∀ ids : List String, (applyLabel (some ids)).flatten = ids ∧
      (archiveMessages (some ids)).flatten = ids) ∧
    (∀ ids : List String, ids.length ≠ 0 →
      (applyLabel (some ids)).map List.length = sliceLens ids.length) ∧
    (∀ ids : List String, ids.length = 123 →
      (applyLabel (some ids)).map List.length = [50, 50, 23] ∧
      (archiveMessages (some ids)).map List.length = [50, 50, 23]) ∧
    (∀ call k (ids : List String),
      ((applyLabelRun call k (some ids)).1).map Prod.fst = applyLabel (some ids) ∧
      ((archiveMessagesRun call k (some ids)).1).map Prod.fst =
        archiveMessages (some ids)) := by
  have happ : ∀ ids : List String, ids.length ≠ 0 →
      applyLabel (some ids) = sliceChunks ids := by
    intro ids h
    simp [applyLabel, h]
  have harch : ∀ ids : List String, ids.length ≠ 0 →
      archiveMessages (some ids) = sliceChunks ids := by
    intro ids h
    simp [archiveMessages, h]
  refine ⟨?_, ?_, ?_, ?_⟩
  · intro ids
    by_cases h : ids.length = 0
    · have hnil : ids = [] := List.eq_nil_of_length_eq_zero h
      subst hnil
      exact ⟨rfl, rfl⟩
    · rw [happ ids h, harch ids h]
      exact ⟨sliceChunks_join ids, sliceChunks_join ids⟩
  · intro ids h
    rw [happ ids h]
    exact sliceChunks_map_length ids
  · intro ids h
    have hne : ids.length ≠ 0 := by omega
    rw [happ ids hne, harch ids hne, sliceChunks_map_length ids, h]
    exact ⟨by decide, by decide⟩
  · intro call k ids
    by_cases h : ids.length = 0
    · have hnil : ids = [] := List.eq_nil_of_length_eq_zero h
      subst hnil
      exact ⟨rfl, rfl⟩
    · simp only [applyLabelRun, archiveMessagesRun, h, if_neg, runChunks_spec,
        happ ids h, harch ids h]
      exact ⟨enumFrom_call_fst call (sliceChunks ids) k,
             enumFrom_call_fst call (sliceChunks ids) k⟩

/-- Witness for C6 at a concrete 123-element list. -/
theorem c6_batch_chunking_witness :
    (List.replicate 123 "m").length = 123 ∧
    (applyLabel (some (List.replicate 123 "m"))).map List.length = [50, 50, 23] :=
  ⟨by decide,
   (c6_batch_chunking.2.2.1 (List.replicate 123 "m") (by decide)).1⟩

/- C1 -/

/-- An if-then-else of category members is a category member. -/
theorem ite_mem_categoryList (c : Prop) [Decidable c] (a b : String)
    (ha : a ∈ categoryList) (hb : b ∈ categoryList) :
    (if c then a else b) ∈ categoryList := by
  split
  · exact ha
  · exact hb

/-- The classifier always lands in the closed category set. -/
theorem categorizeEmail_total (cfg : AnalyzerConfig) (headers : Headers)
    (labels : List String) (fromEmail subject : String) :
    categorizeEmail cfg headers labels fromEmail subject ∈ categoryList := by
  unfold categorizeEmail
  repeat' apply ite_mem_categoryList
  all_goals decide

/-- C1 counterexample: with no configured protected senders or keywords, a
message from `service@paypal.com` with subject "winner!!! claim your prize"
is classified `receipt`, not `protected`, although its domain is on the
built-in protected-domain list — `categorizeEmail` never consults the
protected-domain matcher. -/
theorem c1_protected_domain_counterexample :
    categorizeEmail (mkAnalyzerConfig [] [] [])
      { fromHeader := some "PayPal <service@paypal.com>",
        subjectHeader := some "winner!!! claim your prize",
        listUnsubscribe := none, listId := none }
      [] "service@paypal.com" "winner!!! claim your prize" = "receipt" ∧
    isFromProtectedDomain "service@paypal.com" = true ∧
    ("receipt" = "protected" → False) :=
  ⟨by decide, by decide, by decide⟩

/-- C1 (amended): `categorizeEmail` always returns exactly one category of
the closed set, and a message whose `fromEmail` exactly matches a configured
protected sender, or whose subject contains a configured protected keyword,
resolves to `protected` whenever the sender is not a VIP — regardless of any
spam-like wording; the protected-domain rule is not consulted by the
classifier. -/
theorem c1_classification_protection :
    (∀ cfg headers labels fromEmail subject,
      categorizeEmail cfg headers labels fromEmail subject ∈ categoryList) ∧
    (∀ (cfg : AnalyzerConfig) (headers : Headers) (labels : List String)
        (fromEmail subject : String),
      fromEmail ∉ cfg.vipEmails →
      (fromEmail ∈ cfg.protectedSenders ∨
       ∃ k ∈ cfg.protectedKeywords, strContains (jsToLower subject) k = true) →
      categorizeEmail cfg headers labels fromEmail subject = "protected") := by
  constructor
  · intro cfg headers labels fromEmail subject
    exact categorizeEmail_total cfg headers labels fromEmail subject
  · intro cfg headers labels fromEmail subject hvip hp
    rcases hp with hp | hp
    · simp [categorizeEmail, hvip, hp]
    · by_cases hsend : fromEmail ∈ cfg.protectedSenders
      · simp [categorizeEmail, hvip, hsend]
      · simp [categorizeEmail, hvip, hsend, hp]

/-- Witness for C1: with `service@paypal.com` configured as a protected
sender, the spam-looking message classifies as `protected`. -/
theorem c1_classification_protection_witness :
    ("service@paypal.com" ∉ (mkAnalyzerConfig [] ["service@paypal.com"] []).vipEmails) ∧
    ("service@paypal.com" ∈ (mkAnalyzerConfig [] ["service@paypal.com"] []).protectedSenders) ∧
    categorizeEmail (mkAnalyzerConfig [] ["service@paypal.com"] [])
      { fromHeader := some "PayPal <service@paypal.com>",
        subjectHeader := some "winner!!! claim your prize",
        listUnsubscribe := none, listId := none }
      [] "service@paypal.com" "winner!!! claim your prize" = "protected" :=
  ⟨by decide, by decide,
   c1_classification_protection.2 (mkAnalyzerConfig [] ["service@paypal.com"] [])
     { fromHeader := some "PayPal <service@paypal.com>",
       subjectHeader := some "winner!!! claim your prize",
       listUnsubscribe := none, listId := none }
     [] "service@paypal.com" "winner!!! claim your prize"
     (by decide) (Or.inl (by decide))⟩

/- C10 -/

/-- C10: classification is total on degenerate input — the analyzer
substitutes `""` for absent `From`/`Subject` headers, a `From` value with no
recognizable address (neither regexp matches) extracts to the whole value
lower-cased, and the resulting category always lies in the closed set. -/
theorem c10_degenerate_input_totality :
    (∀ cfg msgId headers labels,
      (analyzeEmailPure cfg msgId headers labels).category ∈ categoryList) ∧
    (∀ cfg msgId (lu li : Option String) labels,
      (analyzeEmailPure cfg msgId ⟨none, none, lu, li⟩ labels).fromField = "" ∧
      (analyzeEmailPure cfg msgId ⟨none, none, lu, li⟩ labels).subject = "" ∧
      (analyzeEmailPure cfg msgId ⟨none, none, lu, li⟩ labels).fromEmail =
        extractEmail "") ∧
    (∀ f : String, angleCapture f.toList = none → findEmailMatch f.toList = none →
      extractEmail f = jsToLower f) := by
  refine ⟨?_, ?_, ?_⟩
  · intro cfg msgId headers labels
    exact categorizeEmail_total cfg headers labels _ _
  · intro cfg msgId lu li labels
    exact ⟨rfl, rfl, rfl⟩
  · intro f h1 h2
    unfold extractEmail
    rw [h1, h2]

/-- Witness for C10 at a `From` value with no recognizable address. -/
theorem c10_degenerate_input_totality_witness :
    angleCapture ("No Address Here").toList = none ∧
    findEmailMatch ("No Address Here").toList = none ∧
    extractEmail "No Address Here" = jsToLower "No Address Here" :=
  ⟨by decide, by decide,
   c10_degenerate_input_totality.2.2 "No Address Here" (by decide) (by decide)⟩

end FixEmail
